import Mathlib

/-!
Verification of the NATS browser-console client wrapper (nats-client).

The definitions below are a shallow embedding of the wrapper module
(the NATS client wrapper source file) and of the storage module
(src/storage.js).  Exceptions thrown by the JavaScript code are modelled
with `Except String`, the error string being the message of the thrown
`Error`.  External facilities (the nats.ws library, `JSON.parse`,
`TextDecoder`) appear as function parameters so the wrapper logic itself
is what the theorems are about.
-/

namespace NatsClient

/-! ## Session state and the subscription registry

The wrapper module keeps `nc` (the connection handle, nullable), a `Map`
`subscriptions` from integer ids to subscription records, and a counter
`subCounter`.  We model the `Map` as an association list with unique
keys, `Map.set` / `Map.delete` / `Map.size` becoming `mapSet`,
`mapDelete` and `List.length`.
-/

/-- Model of JavaScript `Map.prototype.set`: overwrite an existing key in
place, otherwise append the new binding at the end. -/
def mapSet (m : List (Nat × String)) (k : Nat) (v : String) : List (Nat × String) :=
  if m.any (fun p => p.1 == k) then
    m.map (fun p => if p.1 == k then (k, v) else p)
  else
    m ++ [(k, v)]

/-- Model of JavaScript `Map.prototype.delete`: remove the binding with
the given key (keys of a `Map` are unique). -/
def mapDelete (m : List (Nat × String)) (k : Nat) : List (Nat × String) :=
  m.filter (fun p => p.1 != k)

/-- Session-level module state of the wrapper: whether `nc` is non-null,
the subscription registry (id, subject) and the monotonic counter. -/
structure SessionState where
  connected : Bool
  subscriptions : List (Nat × String)
  subCounter : Nat
  deriving DecidableEq, Repr

/-- Result object of `subscribe`: the literal `{ id, subject, size }`. -/
structure SubscribeResult where
  id : Nat
  subject : String
  size : Nat
  deriving DecidableEq, Repr

/-- Embedding of `subscribe(subject, onMessage)`: throws
`"Not Connected"` when `nc` is null; otherwise registers the
subscription under `++subCounter` and reports `subscriptions.size`
taken after the insertion. -/
def subscribe (st : SessionState) (subject : String) :
    Except String (SessionState × SubscribeResult) :=
  if st.connected = false then .error "Not Connected"
  else
    let id := st.subCounter + 1
    let subs := mapSet st.subscriptions id subject
    .ok ({ st with subscriptions := subs, subCounter := id },
         { id := id, subject := subject, size := subs.length })

/-- Embedding of `unsubscribe(id)`: if the id is registered, release it
and report the size after deletion, otherwise report the unchanged
size.  Never throws. -/
def unsubscribe (st : SessionState) (id : Nat) : SessionState × Nat :=
  match st.subscriptions.find? (fun p => p.1 == id) with
  | some _ =>
    let subs := mapDelete st.subscriptions id
    ({ st with subscriptions := subs }, subs.length)
  | none => (st, st.subscriptions.length)

/-- A call in a subscribe/unsubscribe sequence. -/
inductive SubOp where
  | sub (subject : String)
  | unsub (id : Nat)
  deriving DecidableEq, Repr

/-- One call of a subscribe/unsubscribe sequence: the new state together
with the count the call reports (`size` field for subscribe, return
value for unsubscribe). -/
def stepOp (st : SessionState) : SubOp → Except String (SessionState × Nat)
  | .sub subject => (subscribe st subject).map (fun r => (r.1, r.2.size))
  | .unsub id => .ok (unsubscribe st id)

/-- Run a sequence of subscribe/unsubscribe calls, recording after each
call the state reached and the count reported by that call.  A thrown
error ends the sequence. -/
def trace (st : SessionState) : List SubOp → List (SessionState × Nat)
  | [] => []
  | op :: ops =>
    match stepOp st op with
    | .ok (st', n) => (st', n) :: trace st' ops
    | .error _ => []

end NatsClient

namespace NatsClient

theorem subscribe_connected_eq (st : SessionState) (subject : String)
    (h : st.connected = true) :
    subscribe st subject =
      .ok ({ st with
              subscriptions := mapSet st.subscriptions (st.subCounter + 1) subject,
              subCounter := st.subCounter + 1 },
           { id := st.subCounter + 1, subject := subject,
             size := (mapSet st.subscriptions (st.subCounter + 1) subject).length }) := by
  simp [subscribe, h]

/-- C1: after every call in a sequence of subscribe/unsubscribe calls on
a connected session, the count reported by the call equals the number of
subscriptions then in the registry. -/
theorem reported_count_eq_registry_size (ops : List SubOp) (st : SessionState)
    (hc : st.connected = true) :
    ∀ p ∈ trace st ops, p.2 = p.1.subscriptions.length := by
  induction ops generalizing st with
  | nil => intro p hp; simp [trace] at hp
  | cons op ops ih =>
    intro p hp
    cases op with
    | sub subject =>
      rw [trace, stepOp, subscribe_connected_eq st subject hc] at hp
      simp only [Except.map] at hp
      rcases List.mem_cons.mp hp with h | h
      · subst h; rfl
      · refine ih _ ?_ _ h
        exact hc
    | unsub id =>
      rw [trace, stepOp] at hp
      simp only [unsubscribe] at hp
      rcases hfind : st.subscriptions.find? (fun p => p.1 == id) with _ | item
      · rw [hfind] at hp
        rcases List.mem_cons.mp hp with h | h
        · subst h; rfl
        · refine ih _ ?_ _ h
          exact hc
      · rw [hfind] at hp
        rcases List.mem_cons.mp hp with h | h
        · subst h; rfl
        · refine ih _ ?_ _ h
          exact hc

/-- C1 witness: the invariant evaluated on a concrete three-call
sequence. -/
theorem reported_count_eq_registry_size_witness :
    ((⟨true, [(2, "b")], 2⟩ : SessionState), 1).2 =
      ((⟨true, [(2, "b")], 2⟩ : SessionState), 1).1.subscriptions.length :=
  reported_count_eq_registry_size [.sub "a", .sub "b", .unsub 1]
    ⟨true, [], 0⟩ rfl _ (by decide)

end NatsClient

namespace NatsClient

/-! ## Headers: `parseHeaders` and JavaScript JSON values

`parseHeaders(jsonStr)` trims the input, returns `undefined` on an empty
result, and otherwise runs `JSON.parse` in a try block: any parse
failure becomes `Error("Invalid Headers JSON")`.  `JSON.parse` is a
browser builtin, so it enters the model as a parameter
`jsonParse : String → Option JsonValue`; `JsonValue` is the shape of
what it can return. -/

/-- A JavaScript value produced by `JSON.parse`. -/
inductive JsonValue where
  | str (s : String)
  | num (n : Int)
  | bool (b : Bool)
  | null
  | arr (xs : List JsonValue)
  | obj (fields : List (String × JsonValue))

mutual

/-- Model of JavaScript `String(v)` coercion for JSON values (arrays
join their elements with commas, `null` inside an array prints as the
empty string, plain objects print as `[object Object]`). -/
def jsToString : JsonValue → String
  | .str s => s
  | .num n => toString n
  | .bool true => "true"
  | .bool false => "false"
  | .null => "null"
  | .arr xs => String.intercalate "," (jsArrayElems xs)
  | .obj _ => "[object Object]"

def jsArrayElems : List JsonValue → List String
  | [] => []
  | .null :: rest => "" :: jsArrayElems rest
  | v :: rest => jsToString v :: jsArrayElems rest

end

/-- Whitespace for the purposes of `String.prototype.trim`. -/
def jsWhitespace (c : Char) : Bool :=
  c = ' ' || c = '\t' || c = '\n' || c = '\r'

/-- Model of JavaScript `String.prototype.trim`. -/
def jsTrim (s : String) : String :=
  String.mk (((s.toList.dropWhile jsWhitespace).reverse.dropWhile jsWhitespace).reverse)

/-- Enumerable own properties visited by `for (const k in obj)`:
object fields; index keys for arrays and strings; nothing for
primitives. -/
def forInPairs : JsonValue → List (String × JsonValue)
  | .obj fields => fields
  | .arr xs => xs.enum.map (fun p => (toString p.1, p.2))
  | .str s => s.toList.enum.map (fun p => (toString p.1, JsonValue.str (String.mk [p.2])))
  | _ => []

/-- Loop body of `parseHeaders`: `Array.isArray(obj[k])` appends every
element under the key, otherwise the single stringified value. -/
def appendHeaderVal (k : String) : JsonValue → List (String × String)
  | .arr xs => xs.map (fun v => (k, jsToString v))
  | v => [(k, jsToString v)]

/-- Header map built from a parsed JSON value, as a list of
(key, value) append operations in order. -/
def buildHeaders (v : JsonValue) : List (String × String) :=
  (forInPairs v).flatMap (fun kv => appendHeaderVal kv.1 kv.2)

/-- Embedding of `parseHeaders(jsonStr)`: `.ok none` models returning
`undefined`, `.ok (some h)` a headers object, `.error` a thrown
`Error("Invalid Headers JSON")`. -/
def parseHeaders (jsonParse : String → Option JsonValue) (jsonStr : String) :
    Except String (Option (List (String × String))) :=
  let val := jsTrim jsonStr
  if val.isEmpty then .ok none
  else
    match jsonParse val with
    | some v => .ok (some (buildHeaders v))
    | none => .error "Invalid Headers JSON"

/-! ## publish / request / the subscribe delivery loop -/

/-- Model of `sc.encode` (UTF-8 bytes of the payload string). -/
def encode (s : String) : List Nat :=
  s.toUTF8.toList.map (fun b => b.toNat)

/-- A wire message as seen by the wrapper (subject, payload bytes,
optional headers). -/
structure Msg where
  subject : String
  data : List Nat
  headers : Option (List (String × String))
  deriving DecidableEq, Repr

/-- What `publish` hands to `nc.publish` when it forwards at all. -/
structure PubEffect where
  subject : String
  payload : List Nat
  headers : Option (List (String × String))
  deriving DecidableEq, Repr

/-- Embedding of `publish(subject, payload, headersJson)`: when `nc` is
null it returns silently (`.ok none`, no effect); otherwise it parses
headers (which may throw) and forwards to the connection. -/
def publish (st : SessionState) (jsonParse : String → Option JsonValue)
    (subject payload headersJson : String) : Except String (Option PubEffect) :=
  if st.connected = false then .ok none
  else
    (parseHeaders jsonParse headersJson).map (fun h =>
      some { subject := subject, payload := encode payload, headers := h })

/-- Result object of `request`. -/
structure RequestResult where
  subject : String
  data : String
  headers : Option (List (String × String))
  deriving DecidableEq, Repr

/-- Placeholder substituted by `request` when decoding the response
payload fails. -/
def binaryResponsePlaceholder (n : Nat) : String :=
  "[Binary Response: " ++ toString n ++ " bytes]"

/-- Placeholder substituted by the subscribe delivery loop when
decoding a message payload fails. -/
def binaryDataPlaceholder (n : Nat) : String :=
  "[Binary Data: " ++ toString n ++ " bytes]"

/-- Embedding of `request(subject, payload, headersJson, timeout)`:
returns silently when `nc` is null, parses headers, performs the
library round trip (`doRequest`, external, may throw e.g. on timeout),
then decodes the response with a byte-count placeholder fallback.
`dec` is the external `TextDecoder`-based `sc.decode`. -/
def request (st : SessionState) (jsonParse : String → Option JsonValue)
    (doRequest : String → List Nat → Option (List (String × String)) → Except String Msg)
    (dec : List Nat → Option String)
    (subject payload headersJson : String) : Except String (Option RequestResult) :=
  if st.connected = false then .ok none
  else do
    let h ← parseHeaders jsonParse headersJson
    let msg ← doRequest subject (encode payload) h
    let data := match dec msg.data with
      | some s => s
      | none => binaryResponsePlaceholder msg.data.length
    .ok (some { subject := msg.subject, data := data, headers := msg.headers })

/-- What the subscribe delivery loop hands to the `onMessage` callback
for one message. -/
structure RenderedMsg where
  subject : String
  data : String
  isRpc : Bool
  headers : Option (List (String × String))
  deriving DecidableEq, Repr

/-- Body of the `for await` delivery loop of `subscribe`: decode the
payload, falling back to the byte-count placeholder on failure; the
loop itself never throws. -/
def deliverMessage (dec : List Nat → Option String) (m : Msg) : RenderedMsg :=
  match dec m.data with
  | some s => { subject := m.subject, data := s, isRpc := false, headers := m.headers }
  | none => { subject := m.subject, data := binaryDataPlaceholder m.data.length,
              isRpc := false, headers := m.headers }

/-- The delivery loop over the messages yielded by a subscription:
every message is forwarded to the callback, none is dropped. -/
def deliveryLoop (dec : List Nat → Option String) (msgs : List Msg) : List RenderedMsg :=
  msgs.map (deliverMessage dec)

/-! ## Authentication in `connectToNats` -/

/-- Marker string looked up in an uploaded .creds file. -/
def credsMarker : List Char := "-----BEGIN NATS USER JWT-----".toList

/-- Model of `String.prototype.indexOf` (first occurrence, `none` for
-1). -/
def firstIndexOf (pat : List Char) : List Char → Option Nat
  | [] => if pat.isEmpty then some 0 else none
  | c :: rest =>
    if pat.isPrefixOf (c :: rest) then some 0
    else (firstIndexOf pat rest).map (fun i => i + 1)

/-- Model of `rawText.replace(/\r\n/g, "\n")`. -/
def replaceCRLF : List Char → List Char
  | [] => []
  | '\r' :: '\n' :: rest => '\n' :: replaceCRLF rest
  | c :: rest => c :: replaceCRLF rest

/-- The authentication material `connectToNats` places into the connect
options. -/
inductive Auth where
  | credsAuthenticator (text : List Char)
  | token (t : String)
  | userPass (u : String) (p : Option String)
  | noAuth
  deriving DecidableEq, Repr

/-- The `authOptions` argument of `connectToNats`; `credsFile` carries
the text content of the uploaded file. -/
structure AuthOptions where
  credsFile : Option (List Char)
  token : Option String
  user : Option String
  pass : Option String

/-- JavaScript truthiness of an optional string (empty string is
falsy). -/
def truthy : Option String → Bool
  | none => false
  | some s => !s.isEmpty

/-- Authentication-building prefix of `connectToNats`: credentials file
first (throwing `Error("Invalid .creds file")` when the JWT marker is
absent, trimming the prefix before the marker when it starts later than
index 0, and normalising CRLF), then token, then user/password. -/
def buildAuth (a : AuthOptions) : Except String Auth :=
  match a.credsFile with
  | some raw =>
    match firstIndexOf credsMarker raw with
    | some i =>
      let text := if 0 < i then raw.drop i else raw
      .ok (.credsAuthenticator (replaceCRLF text))
    | none => .error "Invalid .creds file"
  | none =>
    if truthy a.token then .ok (.token (a.token.getD ""))
    else if truthy a.user then .ok (.userPass (a.user.getD "") a.pass)
    else .ok .noAuth

/-- Embedding of the connection-opening part of `connectToNats`: the
external `connect` call (`connectImpl`) runs only after `buildAuth`
succeeds, on the auth it produced. -/
def connectToNats {Conn : Type} (connectImpl : Auth → Conn) (a : AuthOptions) :
    Except String Conn :=
  (buildAuth a).map connectImpl

end NatsClient

namespace NatsClient

/-! ## KV store: bucket handle, watcher, value, history

The wrapper keeps `kv` (the open bucket handle, nullable) and
`activeKvWatcher` (the watch iterator, nullable).  We record the bucket
by name and watchers by an abstract handle id; `stoppedWatchers`
collects the handles on which `.stop()` has been called, so the stop
discipline is visible in the state. -/

/-- KV-related module state of the wrapper. -/
structure KvState where
  kv : Option String
  activeKvWatcher : Option Nat
  stoppedWatchers : List Nat
  deriving DecidableEq, Repr

/-- Embedding of `openKvBucket(bucketName)`: `kvm.open` replaces `kv`;
no other module state is touched. -/
def openKvBucket (st : KvState) (bucketName : String) : KvState :=
  { st with kv := some bucketName }

/-- Embedding of `watchKvBucket(onKeyChange)`: returns unchanged when no
bucket is open; otherwise calls `.stop()` on the active watcher if
there is one and installs the freshly created iterator as the active
watcher. -/
def watchKvBucket (st : KvState) (newWatcher : Nat) : KvState :=
  if st.kv.isNone then st
  else
    let stopped :=
      match st.activeKvWatcher with
      | some w => st.stoppedWatchers ++ [w]
      | none => st.stoppedWatchers
    { st with activeKvWatcher := some newWatcher, stoppedWatchers := stopped }

/-- An entry yielded by the external `kv.history({ key })` iterator. -/
structure KvEntry where
  revision : Nat
  operation : String
  value : Option (List Nat)
  created : Nat
  deriving DecidableEq, Repr

/-- A record in the list `getKvHistory` returns. -/
structure HistRecord where
  revision : Nat
  operation : String
  value : Option String
  created : Nat
  deriving DecidableEq, Repr

/-- Embedding of `getKvHistory(key)`: empty with no bucket open;
otherwise push each iterator entry (decoding a present value) and
return the accumulated list reversed.  `dec` is the external
`sc.decode`; `iterEntries` is what the external history iterator for
the key yields, in order. -/
def getKvHistory (dec : List Nat → String) (kv : Option String)
    (iterEntries : List KvEntry) : List HistRecord :=
  match kv with
  | none => []
  | some _ =>
    (iterEntries.map (fun e =>
      { revision := e.revision, operation := e.operation,
        value := e.value.map dec, created := e.created })).reverse

/-- Result object of `getKvValue`. -/
structure KvValueResult where
  value : String
  revision : Nat
  deriving DecidableEq, Repr

/-- Embedding of `getKvValue(key)`: throws `Error("No Bucket Open")`
when no bucket is open; returns `null` (modelled `.ok none`) when
`kv.get(key)` yields no entry; otherwise the decoded value and its
revision.  `store` is the external bucket content (key to value bytes
and revision). -/
def getKvValue (dec : List Nat → String) (kv : Option String)
    (store : String → Option (List Nat × Nat)) (key : String) :
    Except String (Option KvValueResult) :=
  match kv with
  | none => .error "No Bucket Open"
  | some _ =>
    match store key with
    | none => .ok none
    | some (v, rev) => .ok (some { value := dec v, revision := rev })

/-! ## Persistent history (src/storage.js) -/

/-- Cap on the subject history (src/storage.js line 22). -/
def MAX_SUBJECT_HISTORY : Nat := 10

/-- Cap on the URL history (src/storage.js line 23). -/
def MAX_URL_HISTORY : Nat := 5

/-- Embedding of `addSubjectToHistory(subject)` acting on the stored
list: no-op for a falsy subject; otherwise remove duplicates, unshift
to the front and slice to `MAX_SUBJECT_HISTORY`. -/
def addSubjectToHistory (history : List String) (subject : String) : List String :=
  if subject.isEmpty then history
  else
    let filtered := history.filter (fun s => s != subject)
    (subject :: filtered).take MAX_SUBJECT_HISTORY

/-- Embedding of `addUrlToHistory(url)` acting on the stored list:
no-op for a falsy url; otherwise remove duplicates, unshift to the
front and slice to `MAX_URL_HISTORY`. -/
def addUrlToHistory (history : List String) (url : String) : List String :=
  if url.isEmpty then history
  else
    let filtered := history.filter (fun u => u != url)
    (url :: filtered).take MAX_URL_HISTORY

/-! ## JetStream: `getStreamMessageRange` -/

/-- A fetched-and-decoded stream message as built in the `.then`
mapping of `getStreamMessageRange`. -/
structure StreamMsg where
  seq : Int
  subject : String
  data : String
  time : Nat
  deriving DecidableEq, Repr

/-- Embedding of `getStreamMessageRange(name, startSeq, endSeq)`:
clamp `startSeq` to 1, return `[]` when `endSeq < startSeq`, otherwise
fetch every sequence number in the closed range, drop the ones the
`.catch` turned into `null` (gaps), and reverse.  `fetch i` models the
external `mgr.streams.getMessage` together with the `.then` mapping; the
`.catch` collapses any failure to `none`. -/
def getStreamMessageRange (fetch : Int → Option StreamMsg)
    (startSeq endSeq : Int) : List StreamMsg :=
  let s : Int := if startSeq < 1 then 1 else startSeq
  if endSeq < s then []
  else
    let seqs : List Int :=
      (List.range (endSeq - s + 1).toNat).map (fun (i : Nat) => s + (i : Int))
    (seqs.filterMap fetch).reverse

end NatsClient

namespace NatsClient

/-- C2 counterexample: `openKvBucket` does not stop the active watcher.
Opening bucket B over an active watcher (handle 7) leaves that watcher
active and unstopped after the new bucket is in place. -/
theorem openKvBucket_keeps_watcher_counterexample :
    (openKvBucket ⟨some "A", some 7, []⟩ "B").kv = some "B" ∧
    (openKvBucket ⟨some "A", some 7, []⟩ "B").activeKvWatcher = some 7 ∧
    (openKvBucket ⟨some "A", some 7, []⟩ "B").stoppedWatchers = [] :=
  ⟨rfl, rfl, rfl⟩

/-- C2 amended: `openKvBucket` replaces the active bucket but leaves the
watcher state untouched; the prior watcher is stopped by
`watchKvBucket`, which stops it before installing the new one (and is a
no-op when no bucket is open), so at most one watcher is active at a
time. -/
theorem watcher_stop_discipline (st : KvState) (bucketName : String)
    (newWatcher w : Nat) :
    (openKvBucket st bucketName).kv = some bucketName ∧
    (openKvBucket st bucketName).activeKvWatcher = st.activeKvWatcher ∧
    (openKvBucket st bucketName).stoppedWatchers = st.stoppedWatchers ∧
    (st.kv.isNone = false → st.activeKvWatcher = some w →
      (watchKvBucket st newWatcher).activeKvWatcher = some newWatcher ∧
      w ∈ (watchKvBucket st newWatcher).stoppedWatchers) ∧
    (st.kv.isNone = true → watchKvBucket st newWatcher = st) := by
  refine ⟨rfl, rfl, rfl, ?_, ?_⟩
  · intro hkv hw
    constructor
    · simp [watchKvBucket, hkv]
    · simp [watchKvBucket, hkv, hw]
  · intro hkv
    simp [watchKvBucket, hkv]

/-- C2 amended witness: the stop discipline evaluated at a concrete
state with bucket A open and watcher 7 active. -/
theorem watcher_stop_discipline_witness :
    (openKvBucket ⟨some "A", some 7, [3]⟩ "B").kv = some "B" ∧
    (openKvBucket ⟨some "A", some 7, [3]⟩ "B").activeKvWatcher = some 7 ∧
    (openKvBucket ⟨some "A", some 7, [3]⟩ "B").stoppedWatchers = [3] ∧
    ((⟨some "A", some 7, [3]⟩ : KvState).kv.isNone = false →
      (⟨some "A", some 7, [3]⟩ : KvState).activeKvWatcher = some 7 →
      (watchKvBucket ⟨some "A", some 7, [3]⟩ 9).activeKvWatcher = some 9 ∧
      7 ∈ (watchKvBucket ⟨some "A", some 7, [3]⟩ 9).stoppedWatchers) ∧
    ((⟨some "A", some 7, [3]⟩ : KvState).kv.isNone = true →
      watchKvBucket ⟨some "A", some 7, [3]⟩ 9 = ⟨some "A", some 7, [3]⟩) :=
  watcher_stop_discipline ⟨some "A", some 7, [3]⟩ "B" 9 7

/-- C4 counterexample: with no session, `publish` returns silently with
no effect (`.ok none`) instead of throwing the not-connected error, so
the claim that every messaging operation throws it is false. -/
theorem publish_no_session_silent_counterexample :
    publish ⟨false, [], 0⟩ (fun _ => none) "s" "p" "" = .ok none := rfl

/-- C4 amended: with no session, `subscribe` throws the not-connected
error, while `publish` and `request` return silently without doing
anything. -/
theorem no_session_behavior (st : SessionState) (hc : st.connected = false)
    (jsonParse : String → Option JsonValue)
    (doRequest : String → List Nat → Option (List (String × String)) → Except String Msg)
    (dec : List Nat → Option String) (subject payload headersJson : String) :
    subscribe st subject = .error "Not Connected" ∧
    publish st jsonParse subject payload headersJson = .ok none ∧
    request st jsonParse doRequest dec subject payload headersJson = .ok none := by
  refine ⟨?_, ?_, ?_⟩ <;> simp [subscribe, publish, request, hc]

/-- C4 amended witness: the three operations evaluated on a concrete
disconnected state. -/
theorem no_session_behavior_witness :
    subscribe ⟨false, [], 0⟩ "s" = .error "Not Connected" ∧
    publish ⟨false, [], 0⟩ (fun _ => none) "s" "p" "" = .ok none ∧
    request ⟨false, [], 0⟩ (fun _ => none) (fun _ _ _ => .error "timeout")
      (fun _ => none) "s" "p" "" = .ok none :=
  no_session_behavior ⟨false, [], 0⟩ rfl (fun _ => none)
    (fun _ _ _ => .error "timeout") (fun _ => none) "s" "p" ""

/-- C6 counterexample: with bucket B open and key k absent from the
store, `getKvValue` successfully returns `null` (`.ok none`) rather
than failing with an error. -/
theorem getKvValue_absent_returns_null_counterexample :
    getKvValue (fun _ => "") (some "B") (fun _ => none) "k" = .ok none := rfl

/-- C6 amended: `getKvValue` throws the no-bucket error exactly when no
bucket is open; with a bucket open it returns `null` for an absent key
and the decoded value with its revision for a present one. -/
theorem getKvValue_spec (dec : List Nat → String)
    (store : String → Option (List Nat × Nat)) (bucket key : String) :
    getKvValue dec none store key = .error "No Bucket Open" ∧
    (store key = none → getKvValue dec (some bucket) store key = .ok none) ∧
    (∀ v rev, store key = some (v, rev) →
      getKvValue dec (some bucket) store key =
        .ok (some { value := dec v, revision := rev })) := by
  refine ⟨rfl, ?_, ?_⟩
  · intro h; simp [getKvValue, h]
  · intro v rev h; simp [getKvValue, h]

/-- C6 amended witness: both bucket states evaluated on a concrete
one-key store. -/
theorem getKvValue_spec_witness :
    getKvValue (fun _ => "v") none (fun _ => none) "k" = .error "No Bucket Open" ∧
    getKvValue (fun _ => "v") (some "B") (fun _ => none) "k" = .ok none ∧
    getKvValue (fun _ => "v") (some "B") (fun k => if k = "k" then some ([118], 4) else none)
      "k" = .ok (some { value := "v", revision := 4 }) :=
  ⟨(getKvValue_spec (fun _ => "v") (fun _ => none) "B" "k").1,
   (getKvValue_spec (fun _ => "v") (fun _ => none) "B" "k").2.1 rfl,
   (getKvValue_spec (fun _ => "v") (fun k => if k = "k" then some ([118], 4) else none)
      "B" "k").2.2 [118] 4 rfl⟩

/-- C7: a payload that fails decoding does not fail the operation: the
subscribe delivery loop forwards every message (none is dropped), a
failing message is rendered with the byte-count placeholder, and
`request` succeeds, its result text being the byte-count placeholder. -/
theorem decode_failure_placeholder (dec : List Nat → Option String) (msgs : List Msg) :
    (deliveryLoop dec msgs).length = msgs.length ∧
    (∀ m, dec m.data = none → deliverMessage dec m =
      { subject := m.subject, data := binaryDataPlaceholder m.data.length,
        isRpc := false, headers := m.headers }) ∧
    (∀ m ∈ msgs, deliverMessage dec m ∈ deliveryLoop dec msgs) ∧
    (∀ (st : SessionState) (jsonParse : String → Option JsonValue)
       (doRequest : String → List Nat → Option (List (String × String)) → Except String Msg)
       (subject payload headersJson : String)
       (h : Option (List (String × String))) (msg : Msg),
      st.connected = true →
      parseHeaders jsonParse headersJson = .ok h →
      doRequest subject (encode payload) h = .ok msg →
      dec msg.data = none →
      request st jsonParse doRequest dec subject payload headersJson =
        .ok (some { subject := msg.subject,
                    data := binaryResponsePlaceholder msg.data.length,
                    headers := msg.headers })) := by
  refine ⟨by simp [deliveryLoop], ?_, ?_, ?_⟩
  · intro m hm; simp [deliverMessage, hm]
  · intro m hm; exact List.mem_map_of_mem _ hm
  · intro st jsonParse doRequest subject payload headersJson h msg hc hph hdr hdec
    simp [request, hc, hph, hdr, hdec, Bind.bind, Except.bind]

/-- C7 witness: a two-message loop in which the second payload fails to
decode, and a request whose response payload fails to decode. -/
theorem decode_failure_placeholder_witness :
    (deliveryLoop (fun d => if d = [104] then some "h" else none)
        [⟨"s1", [104], none⟩, ⟨"s2", [0, 1], none⟩]).length = 2 ∧
    deliverMessage (fun d => if d = [104] then some "h" else none) ⟨"s2", [0, 1], none⟩ =
      { subject := "s2", data := binaryDataPlaceholder 2, isRpc := false, headers := none } ∧
    request ⟨true, [], 0⟩ (fun _ => none)
      (fun _ _ _ => .ok ⟨"r", [0, 1], none⟩)
      (fun d => if d = [104] then some "h" else none) "s" "p" "" =
      .ok (some { subject := "r", data := binaryResponsePlaceholder 2, headers := none }) := by
  have H := decode_failure_placeholder (fun d => if d = [104] then some "h" else none)
    [⟨"s1", [104], none⟩, ⟨"s2", [0, 1], none⟩]
  exact ⟨H.1, H.2.1 ⟨"s2", [0, 1], none⟩ (by decide),
    H.2.2.2 ⟨true, [], 0⟩ (fun _ => none) (fun _ _ _ => .ok ⟨"r", [0, 1], none⟩)
      "s" "p" "" none ⟨"r", [0, 1], none⟩ rfl rfl rfl (by decide)⟩

end NatsClient

namespace NatsClient

/-- C3: `connectToNats` builds authentication from exactly one of the
credentials file, the token and the user/password pair, in that
precedence order, and a credentials-file content without the JWT marker
fails with the auth error before any connection is opened. -/
theorem connectToNats_auth_spec {Conn : Type} (connectImpl : Auth → Conn)
    (a : AuthOptions) :
    (∀ content, a.credsFile = some content →
      (firstIndexOf credsMarker content = none →
        connectToNats connectImpl a = .error "Invalid .creds file") ∧
      (∀ i, firstIndexOf credsMarker content = some i →
        connectToNats connectImpl a =
          .ok (connectImpl (.credsAuthenticator
            (replaceCRLF (if 0 < i then content.drop i else content)))))) ∧
    (a.credsFile = none → truthy a.token = true →
      connectToNats connectImpl a = .ok (connectImpl (.token (a.token.getD "")))) ∧
    (a.credsFile = none → truthy a.token = false → truthy a.user = true →
      connectToNats connectImpl a =
        .ok (connectImpl (.userPass (a.user.getD "") a.pass))) ∧
    (a.credsFile = none → truthy a.token = false → truthy a.user = false →
      connectToNats connectImpl a = .ok (connectImpl .noAuth)) := by
  refine ⟨?_, ?_, ?_, ?_⟩
  · intro content hcf
    constructor
    · intro hidx
      simp [connectToNats, buildAuth, hcf, hidx, Except.map]
    · intro i hidx
      simp [connectToNats, buildAuth, hcf, hidx, Except.map]
  · intro hcf ht
    simp [connectToNats, buildAuth, hcf, ht, Except.map]
  · intro hcf ht hu
    simp [connectToNats, buildAuth, hcf, ht, hu, Except.map]
  · intro hcf ht hu
    simp [connectToNats, buildAuth, hcf, ht, hu, Except.map]

/-- C3 witness: a credentials file without the marker fails; the
precedence among token and user/password evaluated on concrete
options. -/
theorem connectToNats_auth_spec_witness :
    connectToNats (fun x => x) ⟨some ("xyz".toList), some "t", some "u", some "p"⟩ =
      .error "Invalid .creds file" ∧
    connectToNats (fun x => x) ⟨none, some "t", some "u", some "p"⟩ =
      .ok (.token "t") ∧
    connectToNats (fun x => x) ⟨none, none, some "u", some "p"⟩ =
      .ok (.userPass "u" (some "p")) ∧
    connectToNats (fun x => x) ⟨none, none, none, none⟩ = .ok .noAuth :=
  ⟨((connectToNats_auth_spec (fun x => x)
      ⟨some ("xyz".toList), some "t", some "u", some "p"⟩).1
        ("xyz".toList) rfl).1 (by decide),
   (connectToNats_auth_spec (fun x => x) ⟨none, some "t", some "u", some "p"⟩).2.1
      rfl rfl,
   (connectToNats_auth_spec (fun x => x) ⟨none, none, some "u", some "p"⟩).2.2.1
      rfl rfl rfl,
   (connectToNats_auth_spec (fun x => x) ⟨none, none, none, none⟩).2.2.2
      rfl rfl rfl⟩

/-- C8: `parseHeaders` on the example header JSON produces a header map
with key a and value "1" (given that `JSON.parse` parses it to the
corresponding object); a nonempty input rejected by `JSON.parse` throws
the invalid-headers error; an input that trims to the empty string
yields no headers and no error. -/
theorem parseHeaders_spec (jsonParse : String → Option JsonValue) :
    (jsonParse "\x7b\"a\":\"1\"\x7d" = some (.obj [("a", .str "1")]) →
      parseHeaders jsonParse "\x7b\"a\":\"1\"\x7d" = .ok (some [("a", "1")])) ∧
    (∀ s, (jsTrim s).isEmpty = false → jsonParse (jsTrim s) = none →
      parseHeaders jsonParse s = .error "Invalid Headers JSON") ∧
    (∀ s, (jsTrim s).isEmpty = true → parseHeaders jsonParse s = .ok none) := by
  refine ⟨?_, ?_, ?_⟩
  · intro h
    have hv : parseHeaders jsonParse "\x7b\"a\":\"1\"\x7d" =
        match jsonParse "\x7b\"a\":\"1\"\x7d" with
        | some v => .ok (some (buildHeaders v))
        | none => .error "Invalid Headers JSON" := rfl
    rw [hv, h]
    rfl
  · intro s h1 h2
    simp [parseHeaders, h1, h2]
  · intro s h1
    simp [parseHeaders, h1]

/-- C8 witness: the three cases evaluated with a concrete `JSON.parse`
that accepts exactly the example string. -/
theorem parseHeaders_spec_witness :
    parseHeaders
        (fun s => if s = "\x7b\"a\":\"1\"\x7d" then some (.obj [("a", .str "1")]) else none)
        "\x7b\"a\":\"1\"\x7d" = .ok (some [("a", "1")]) ∧
    parseHeaders
        (fun s => if s = "\x7b\"a\":\"1\"\x7d" then some (.obj [("a", .str "1")]) else none)
        "nope" = .error "Invalid Headers JSON" ∧
    parseHeaders
        (fun s => if s = "\x7b\"a\":\"1\"\x7d" then some (.obj [("a", .str "1")]) else none)
        "  " = .ok none :=
  ⟨(parseHeaders_spec _).1 rfl,
   (parseHeaders_spec _).2.1 "nope" rfl rfl,
   (parseHeaders_spec _).2.2 "  " rfl⟩

end NatsClient

namespace NatsClient

/-- C5: when the external history iterator yields the key's records in
strictly increasing revision order, `getKvHistory` returns them in
strictly decreasing revision order (newest first). -/
theorem getKvHistory_newest_first (dec : List Nat → String) (kv : Option String)
    (iterEntries : List KvEntry)
    (hinc : (iterEntries.map (fun e => e.revision)).Pairwise (· < ·)) :
    ((getKvHistory dec kv iterEntries).map (fun r => r.revision)).Pairwise (· > ·) := by
  cases kv with
  | none => simp [getKvHistory]
  | some b =>
    unfold getKvHistory
    rw [List.map_reverse, List.map_map, List.pairwise_reverse]
    exact hinc

/-- C5 witness: a two-entry history with revisions 1 then 2 comes back
with revisions 2 then 1. -/
theorem getKvHistory_newest_first_witness :
    ((getKvHistory (fun _ => "") (some "B")
        [⟨1, "PUT", none, 0⟩, ⟨2, "PUT", none, 0⟩]).map
      (fun r => r.revision)).Pairwise (· > ·) :=
  getKvHistory_newest_first (fun _ => "") (some "B")
    [⟨1, "PUT", none, 0⟩, ⟨2, "PUT", none, 0⟩] (by decide)

end NatsClient

namespace NatsClient

theorem addSubjectToHistory_eq (h : List String) (s : String) :
    addSubjectToHistory h s =
      if s.isEmpty then h
      else (s :: h.filter (fun x => x != s)).take MAX_SUBJECT_HISTORY := rfl

theorem addUrlToHistory_eq (h : List String) (s : String) :
    addUrlToHistory h s =
      if s.isEmpty then h
      else (s :: h.filter (fun x => x != s)).take MAX_URL_HISTORY := rfl

theorem ringAdd_length_le (l : List String) (s : String) (n : Nat)
    (hl : l.length ≤ n) :
    (if s.isEmpty then l else (s :: l.filter (fun x => x != s)).take n).length ≤ n := by
  split
  · exact hl
  · simp

theorem ringAdd_nodup (l : List String) (s : String) (n : Nat) (hl : l.Nodup) :
    (if s.isEmpty then l else (s :: l.filter (fun x => x != s)).take n).Nodup := by
  split
  · exact hl
  · refine List.Nodup.sublist (List.take_sublist _ _) ?_
    refine List.nodup_cons.mpr ⟨?_, hl.filter _⟩
    intro hmem
    have hne := List.of_mem_filter hmem
    simp at hne

theorem ringAdd_head_tail (l : List String) (s : String) (n : Nat)
    (hn : 1 ≤ n) :
    ((s :: l.filter (fun x => x != s)).take n).head? = some s ∧
    s ∉ ((s :: l.filter (fun x => x != s)).take n).tail := by
  obtain ⟨m, rfl⟩ : ∃ m, n = m + 1 := ⟨n - 1, (Nat.succ_pred_eq_of_pos hn).symm⟩
  rw [List.take_succ_cons]
  refine ⟨rfl, ?_⟩
  intro hmem
  simp only [List.tail_cons] at hmem
  have hne := List.of_mem_filter (List.Sublist.subset (List.take_sublist _ _) hmem)
  simp at hne

theorem foldl_addSubject_inv (subjects : List String) (acc : List String)
    (hlen : acc.length ≤ MAX_SUBJECT_HISTORY) (hnd : acc.Nodup) :
    (subjects.foldl addSubjectToHistory acc).length ≤ MAX_SUBJECT_HISTORY ∧
    (subjects.foldl addSubjectToHistory acc).Nodup := by
  induction subjects generalizing acc with
  | nil => exact ⟨hlen, hnd⟩
  | cons s rest ih =>
    apply ih
    · rw [addSubjectToHistory_eq]; exact ringAdd_length_le _ _ _ hlen
    · rw [addSubjectToHistory_eq]; exact ringAdd_nodup _ _ _ hnd

theorem foldl_addUrl_inv (urls : List String) (acc : List String)
    (hlen : acc.length ≤ MAX_URL_HISTORY) (hnd : acc.Nodup) :
    (urls.foldl addUrlToHistory acc).length ≤ MAX_URL_HISTORY ∧
    (urls.foldl addUrlToHistory acc).Nodup := by
  induction urls generalizing acc with
  | nil => exact ⟨hlen, hnd⟩
  | cons s rest ih =>
    apply ih
    · rw [addUrlToHistory_eq]; exact ringAdd_length_le _ _ _ hlen
    · rw [addUrlToHistory_eq]; exact ringAdd_nodup _ _ _ hnd

/-- C9 counterexample: adding six distinct subjects to an empty subject
history leaves six entries, so the subject history is not capped at 5
entries; the code caps subjects at 10 and URLs at 5, the reverse of the
claimed "5 and 10 respectively". -/
theorem subject_history_six_entries_counterexample :
    (["a", "b", "c", "d", "e", "f"].foldl addSubjectToHistory []).length = 6 := by
  decide

/-- C9 amended: the persisted subject history is capped at 10 entries
and the URL history at 5 (`MAX_SUBJECT_HISTORY` and `MAX_URL_HISTORY`);
after any sequence of adds the histories respect their caps and hold no
duplicates, and each add of a nonempty entry puts it first, its earlier
duplicates removed. -/
theorem history_ring_buffer_spec (subjects urls : List String)
    (h : List String) (s : String) (hs : s.isEmpty = false) :
    (subjects.foldl addSubjectToHistory []).length ≤ MAX_SUBJECT_HISTORY ∧
    (subjects.foldl addSubjectToHistory []).Nodup ∧
    (urls.foldl addUrlToHistory []).length ≤ MAX_URL_HISTORY ∧
    (urls.foldl addUrlToHistory []).Nodup ∧
    (addSubjectToHistory h s).head? = some s ∧
    s ∉ (addSubjectToHistory h s).tail ∧
    (addUrlToHistory h s).head? = some s ∧
    s ∉ (addUrlToHistory h s).tail := by
  have hsubj := foldl_addSubject_inv subjects [] (by simp) List.nodup_nil
  have hurl := foldl_addUrl_inv urls [] (by simp) List.nodup_nil
  have h1 := ringAdd_head_tail h s MAX_SUBJECT_HISTORY (by decide)
  have h2 := ringAdd_head_tail h s MAX_URL_HISTORY (by decide)
  rw [addSubjectToHistory_eq, addUrlToHistory_eq, if_neg (by simp [hs]),
    if_neg (by simp [hs])]
  exact ⟨hsubj.1, hsubj.2, hurl.1, hurl.2, h1.1, h1.2, h2.1, h2.2⟩

/-- C9 amended witness: the ring-buffer properties evaluated on
concrete six-element add sequences and a concrete single add. -/
theorem history_ring_buffer_spec_witness :
    ((["a", "b", "c", "d", "e", "f"].foldl addSubjectToHistory []).length ≤
      MAX_SUBJECT_HISTORY ∧
    (["a", "b", "c", "d", "e", "f"].foldl addSubjectToHistory []).Nodup ∧
    (["a", "b", "c", "d", "e", "f"].foldl addUrlToHistory []).length ≤
      MAX_URL_HISTORY ∧
    (["a", "b", "c", "d", "e", "f"].foldl addUrlToHistory []).Nodup ∧
    (addSubjectToHistory ["x", "y"] "y").head? = some "y" ∧
    "y" ∉ (addSubjectToHistory ["x", "y"] "y").tail ∧
    (addUrlToHistory ["x", "y"] "y").head? = some "y" ∧
    "y" ∉ (addUrlToHistory ["x", "y"] "y").tail) :=
  history_ring_buffer_spec ["a", "b", "c", "d", "e", "f"]
    ["a", "b", "c", "d", "e", "f"] ["x", "y"] "y" rfl

end NatsClient

namespace NatsClient

theorem map_seq_filterMap_sublist (fetch : Int → Option StreamMsg)
    (hf : ∀ i m, fetch i = some m → m.seq = i) (l : List Int) :
    ((l.filterMap fetch).map (fun m => m.seq)).Sublist l := by
  induction l with
  | nil => simp
  | cons i rest ih =>
    rw [List.filterMap_cons]
    cases hfi : fetch i with
    | none => exact ih.cons i
    | some m =>
      rw [List.map_cons, hf i m hfi]
      exact ih.cons₂ i

theorem mem_range_map_add (s : Int) (n : Nat) (i : Int) :
    i ∈ (List.range n).map (fun (j : Nat) => s + (j : Int)) ↔ s ≤ i ∧ i < s + n := by
  simp only [List.mem_map, List.mem_range]
  constructor
  · rintro ⟨j, hj, rfl⟩
    omega
  · rintro ⟨h1, h2⟩
    exact ⟨(i - s).toNat, by omega, by omega⟩

/-- C10: given the library guarantee that fetching sequence number `i`
yields a message whose `seq` is `i`, `getStreamMessageRange` returns
`[]` when `endSeq < max startSeq 1`, and otherwise exactly the existing
messages with sequence number in `[max startSeq 1, endSeq]` (gaps are
skipped, not errors), in strictly decreasing sequence order. -/
theorem getStreamMessageRange_spec (fetch : Int → Option StreamMsg)
    (startSeq endSeq : Int)
    (hf : ∀ i m, fetch i = some m → m.seq = i) :
    (endSeq < max startSeq 1 → getStreamMessageRange fetch startSeq endSeq = []) ∧
    (∀ m, m ∈ getStreamMessageRange fetch startSeq endSeq ↔
      (max startSeq 1 ≤ m.seq ∧ m.seq ≤ endSeq ∧ fetch m.seq = some m)) ∧
    ((getStreamMessageRange fetch startSeq endSeq).map (fun m => m.seq)).Pairwise
      (· > ·) := by
  have hms : (if startSeq < 1 then (1 : Int) else startSeq) = max startSeq 1 := by
    split <;> omega
  by_cases hlt : endSeq < max startSeq 1
  · have hempty : getStreamMessageRange fetch startSeq endSeq = [] := by
      unfold getStreamMessageRange
      rw [hms, if_pos hlt]
    refine ⟨fun _ => hempty, ?_, ?_⟩
    · intro m
      rw [hempty]
      simp only [List.not_mem_nil, false_iff]
      rintro ⟨h1, h2, _⟩
      omega
    · rw [hempty]
      simp
  · have heq : getStreamMessageRange fetch startSeq endSeq =
        (((List.range (endSeq - max startSeq 1 + 1).toNat).map
          (fun (j : Nat) => max startSeq 1 + (j : Int))).filterMap fetch).reverse := by
      unfold getStreamMessageRange
      rw [hms, if_neg hlt]
    have hn : (((endSeq - max startSeq 1 + 1).toNat : Int)) =
        endSeq - max startSeq 1 + 1 := by omega
    refine ⟨fun h => absurd h hlt, ?_, ?_⟩
    · intro m
      rw [heq, List.mem_reverse, List.mem_filterMap]
      constructor
      · rintro ⟨i, hi, hfi⟩
        rw [mem_range_map_add] at hi
        have hseq := hf i m hfi
        subst hseq
        exact ⟨hi.1, by omega, hfi⟩
      · rintro ⟨h1, h2, h3⟩
        exact ⟨m.seq, (mem_range_map_add _ _ _).mpr ⟨h1, by omega⟩, h3⟩
    · rw [heq, List.map_reverse, List.pairwise_reverse]
      refine List.Pairwise.sublist (map_seq_filterMap_sublist fetch hf _) ?_
      rw [List.pairwise_map]
      refine List.Pairwise.imp ?_ (List.pairwise_lt_range _)
      intro a b hab
      simp only [gt_iff_lt]
      omega

/-- C10 witness: a stream holding messages at sequences 1 and 3 only,
queried with startSeq 0 and endSeq 5: the existing in-range messages
come back newest first. -/
theorem getStreamMessageRange_spec_witness :
    (⟨3, "b", "y", 0⟩ : StreamMsg) ∈
      getStreamMessageRange
        (fun i => if i = 1 then some ⟨1, "a", "x", 0⟩
                  else if i = 3 then some ⟨3, "b", "y", 0⟩ else none) 0 5 ∧
    ((getStreamMessageRange
        (fun i => if i = 1 then some ⟨1, "a", "x", 0⟩
                  else if i = 3 then some ⟨3, "b", "y", 0⟩ else none) 0 5).map
      (fun m => m.seq)).Pairwise (· > ·) := by
  have hf : ∀ i m,
      (fun i => if i = (1 : Int) then some (⟨1, "a", "x", 0⟩ : StreamMsg)
                else if i = 3 then some ⟨3, "b", "y", 0⟩ else none) i = some m →
      m.seq = i := by
    intro i m h
    dsimp only at h
    by_cases h1 : i = 1
    · subst h1
      rw [if_pos rfl] at h
      cases h
      rfl
    · rw [if_neg h1] at h
      by_cases h3 : i = 3
      · subst h3
        rw [if_pos rfl] at h
        cases h
        rfl
      · rw [if_neg h3] at h
        cases h
  have H := getStreamMessageRange_spec
    (fun i => if i = 1 then some ⟨1, "a", "x", 0⟩
              else if i = 3 then some ⟨3, "b", "y", 0⟩ else none) 0 5 hf
  exact ⟨(H.2.1 ⟨3, "b", "y", 0⟩).mpr ⟨by decide, by decide, rfl⟩, H.2.2⟩

end NatsClient
